import Mathlib

/-!
Verification of the mural client (src/echo/components/Mural.tsx) and the
stream API route of the beyondbinary/echo repository.

The JavaScript number arithmetic of the source is embedded as exact rational
(`ℚ`) / integer (`ℤ`) arithmetic: every quantity the claims speak about
(view scale, pan center, spiral targets, timestamps, distances) is produced
by field operations, `Math.round`, `Math.ceil`, `Math.min`/`Math.max` and
comparisons, all of which IEEE doubles perform exactly on the magnitudes
involved, so the rational model is faithful.  `Math.cos`/`Math.sin` are a
fixed platform function of no arithmetic consequence to any claim; they are
modelled as an explicit function parameter `cosF`/`sinF` over which every
theorem quantifies universally.  The cosine ease curve of the animation
interpolation, whose claims do depend on real trigonometry, is modelled over
`ℝ` with `Real.cos`.
-/

namespace Echo

/-- Reference-space width (`REF_W` in Mural.tsx). -/
def REF_W : ℚ := 800

/-- Reference-space height (`REF_H` in Mural.tsx). -/
def REF_H : ℚ := 600

/-- Visual blob radius in reference coordinates (`BLOB_RADIUS`). -/
def BLOB_RADIUS : ℚ := 18

/-- Resonance / similarity glow duration in milliseconds (`GLOW_DURATION`). -/
def GLOW_DURATION : ℤ := 4500

/-- The view transform state: `viewScaleRef.current` and
`viewCenterRef.current` of Mural.tsx. -/
structure ViewState where
  scale : ℚ
  centerX : ℚ
  centerY : ℚ
  deriving DecidableEq, Repr

/-- `Math.min(cssW / REF_W, cssH / REF_H)` — the uniform base scale fitting
the reference rectangle into the viewport. -/
def baseFit (cssW cssH : ℚ) : ℚ := min (cssW / REF_W) (cssH / REF_H)

/-- `Math.max(0.25, Math.min(6, s))` — the view-scale clamp used by both
`zoomAround` and `setViewScale`. -/
def clampScale (s : ℚ) : ℚ := max (1/4) (min 6 s)

/-- The screen→reference transform `toRef` (Mural.tsx lines 786-795):
`rx = (cssX - cssW/2) / (base * viewScale) + viewCenter.x` and likewise
for `y`. -/
def toRef (v : ViewState) (cssW cssH cssX cssY : ℚ) : ℚ × ℚ :=
  let effective := baseFit cssW cssH * v.scale
  ((cssX - cssW / 2) / effective + v.centerX,
   (cssY - cssH / 2) / effective + v.centerY)

/-- `zoomAround(factor, cssX?, cssY?)` (Mural.tsx lines 103-120).  An absent
focus coordinate defaults to the viewport center, exactly as in the source. -/
def zoomAround (v : ViewState) (cssW cssH factor : ℚ)
    (cssX? cssY? : Option ℚ) : ViewState :=
  let base := baseFit cssW cssH
  let oldScale := v.scale
  let newScale := clampScale (oldScale * factor)
  let focusX := cssX?.getD (cssW / 2)
  let focusY := cssY?.getD (cssH / 2)
  let effectiveOld := base * oldScale
  let rx := (focusX - cssW / 2) / effectiveOld + v.centerX
  let ry := (focusY - cssH / 2) / effectiveOld + v.centerY
  let effectiveNew := base * newScale
  { scale := newScale
    centerX := rx - (focusX - cssW / 2) / effectiveNew
    centerY := ry - (focusY - cssH / 2) / effectiveNew }

/-- `setViewScale(newScale, focusCssX?, focusCssY?)` (Mural.tsx lines
1132-1147), the wheel / pinch zoom entry point: clamps the requested scale
and, when a focus point is supplied, re-solves the pan center so the focus
point keeps its reference coordinate. -/
def setViewScale (v : ViewState) (cssW cssH newScaleArg : ℚ)
    (focus? : Option (ℚ × ℚ)) : ViewState :=
  let base := baseFit cssW cssH
  let oldScale := v.scale
  let newScale := clampScale newScaleArg
  match focus? with
  | some f =>
    let effectiveOld := base * oldScale
    let rx := (f.1 - cssW / 2) / effectiveOld + v.centerX
    let ry := (f.2 - cssH / 2) / effectiveOld + v.centerY
    let effectiveNew := base * newScale
    { scale := newScale
      centerX := rx - (f.1 - cssW / 2) / effectiveNew
      centerY := ry - (f.2 - cssH / 2) / effectiveNew }
  | none => { v with scale := newScale }

/-- `resetView()` (Mural.tsx lines 122-125). -/
def resetView : ViewState :=
  { scale := 1, centerX := REF_W / 2, centerY := REF_H / 2 }

/-- The initial view state set up by the refs on mount:
scale 1, center at the middle of the reference space. -/
def initialView : ViewState :=
  { scale := 1, centerX := REF_W / 2, centerY := REF_H / 2 }

/-- Every operation of the component that writes `viewScaleRef.current`:
the plus and minus buttons (`zoomAround`), wheel and pinch zoom (`setViewScale`), and
the reset button (`resetView`). -/
inductive ViewOp where
  | zoom (cssW cssH factor : ℚ) (cssX? cssY? : Option ℚ)
  | setScale (cssW cssH newScaleArg : ℚ) (focus? : Option (ℚ × ℚ))
  | reset
  deriving Repr

/-- Apply one view operation. -/
def applyViewOp (v : ViewState) : ViewOp → ViewState
  | .zoom w h f x? y? => zoomAround v w h f x? y?
  | .setScale w h s foc? => setViewScale v w h s foc?
  | .reset => resetView

/-- Apply a sequence of view operations, left to right. -/
def applyViewOps (v : ViewState) (ops : List ViewOp) : ViewState :=
  ops.foldl applyViewOp v

/-- An entity of the mural (`Entry` of lib/types.ts), restricted to the
fields the verified operations read.  `created_at` is kept as the epoch
millisecond value `new Date(e.created_at).getTime()` yields. -/
structure Entry where
  id : String
  user_id : Option String
  created_at : ℤ
  x : ℚ
  y : ℚ
  deriving DecidableEq, Repr

/-- JavaScript `Math.round`: round half toward positive infinity,
`⌊x + 1/2⌋`. -/
def jsRound (x : ℚ) : ℤ := ⌊x + 1/2⌋

/-- One spiral parameter set: angular step per index, radial separation per
radian, base radius offset, and the minimum allowed distance to every
already-placed target. -/
structure SpiralParams where
  angleStep : ℚ
  sep : ℚ
  baseOffset : ℚ
  minDist : ℚ
  deriving DecidableEq, Repr

/-- The looser full-layout parameter set of `scheduleSpiralPositions`
(Mural.tsx lines 390-394): `angleStep = 0.45`,
`spiralSeparation = Math.max(22, BLOB_RADIUS + 6)`, base offset 16,
`minDist = Math.max(Math.ceil(BLOB_RADIUS * 4.2), BLOB_RADIUS * 2 + 24)`. -/
def fullLayoutParams : SpiralParams :=
  { angleStep := 9/20
    sep := max 22 (BLOB_RADIUS + 6)
    baseOffset := 16
    minDist := max ((⌈BLOB_RADIUS * (21/5)⌉ : ℤ) : ℚ) (BLOB_RADIUS * 2 + 24) }

/-- The tighter single-entity insertion parameter set of
`insertEntryAtTail` (Mural.tsx lines 461-463): `angleStep = 0.45`,
`spiralSeparation = Math.max(14, BLOB_RADIUS + 4)`, base offset 16,
`minDist = Math.max(Math.ceil(BLOB_RADIUS * 3.2), BLOB_RADIUS * 2 + 12)`. -/
def tailInsertParams : SpiralParams :=
  { angleStep := 9/20
    sep := max 14 (BLOB_RADIUS + 4)
    baseOffset := 16
    minDist := max ((⌈BLOB_RADIUS * (16/5)⌉ : ℤ) : ℚ) (BLOB_RADIUS * 2 + 12) }

/-- The spiral candidate at a given angle:
`radius = sep * angle + baseOffset`,
`(Math.round(centerX + cos(angle) * radius),
  Math.round(centerY + sin(angle) * radius))`. -/
def spiralCandidate (cosF sinF : ℚ → ℚ) (p : SpiralParams) (angle : ℚ) :
    ℤ × ℤ :=
  let radius := p.sep * angle + p.baseOffset
  (jsRound (REF_W / 2 + cosF angle * radius),
   jsRound (REF_H / 2 + sinF angle * radius))

/-- Squared Euclidean distance between two integer points. -/
def distSq (a b : ℤ × ℤ) : ℤ := (a.1 - b.1) ^ 2 + (a.2 - b.2) ^ 2

/-- The collision test `targets.find((t) => Math.hypot(t.x - tx, t.y - ty)
< minDist)` of the source, written with squared distances:
`Math.hypot d < m` for nonnegative `m` is exactly `d.x² + d.y² < m²`. -/
def hasClash (targets : List (ℤ × ℤ)) (c : ℤ × ℤ) (minDist : ℚ) : Bool :=
  targets.any fun t => decide (((distSq t c : ℤ) : ℚ) < minDist ^ 2)

/-- The collision retry loop (`for (let pass = 0; pass < 24; pass++)`):
each pass checks the current candidate; on clash it advances the angle by
`deltaAngle = 0.25` and recomputes; when the fuel runs out the last —
unchecked — candidate is accepted.  The Boolean result records whether the
loop exited through the no-clash `break` (it is the observable "retry
budget not exhausted" of the source's control flow). -/
def nudge (cosF sinF : ℚ → ℚ) (p : SpiralParams) (targets : List (ℤ × ℤ)) :
    ℕ → ℚ → ℤ × ℤ → (ℤ × ℤ) × Bool
  | 0, _, c => (c, false)
  | fuel + 1, angle, c =>
    if hasClash targets c p.minDist then
      let angle2 := angle + 1/4
      nudge cosF sinF p targets fuel angle2 (spiralCandidate cosF sinF p angle2)
    else (c, true)

/-- `computeTargetForIndex` (Mural.tsx lines 399-419) and the identical
inlined loops of `insertEntryAtTail`: initial angle `index * angleStep`,
then the 24-attempt collision retry loop. -/
def placeAt (cosF sinF : ℚ → ℚ) (p : SpiralParams) (targets : List (ℤ × ℤ))
    (index : ℕ) : (ℤ × ℤ) × Bool :=
  let angle := (index : ℚ) * p.angleStep
  nudge cosF sinF p targets 24 angle (spiralCandidate cosF sinF p angle)

/-- A display-placement record of `displayPosRef` (Mural.tsx lines 53-62).
Every write of the source stores integer coordinates here (rounded spiral
targets or the integer reference center 400/300), so the coordinates are
kept as `ℤ`. -/
structure Placement where
  startX : ℤ
  startY : ℤ
  targetX : ℤ
  targetY : ℤ
  startTs : ℤ
  delay : ℤ
  duration : ℤ
  finished : Bool
  deriving DecidableEq, Repr

/-- The result of placing one entry in a full-layout pass: its placement
record, the rounded spiral target, and the collision loop's exit mode
(`ok = true` iff the loop left through the no-clash break). -/
structure PlaceResult where
  entry : Entry
  pl : Placement
  pt : ℤ × ℤ
  ok : Bool
  deriving DecidableEq, Repr

/-- The body of the `scheduleSpiralPositions` loop (Mural.tsx lines
423-449): walks the entries with the ordinal index `i`, the tail index for
recent entries, and the accumulated target list.  `now` models the
`Date.now()` calls of the pass (constant during the synchronous loop). -/
def scheduleAux (cosF sinF : ℚ → ℚ) (now : ℤ) :
    List Entry → ℕ → ℕ → List (ℤ × ℤ) → List PlaceResult
  | [], _, _, _ => []
  | e :: rest, i, tailIdx, targets =>
    let isRecent := decide (now - e.created_at < 5000)
    let useIndex := if isRecent then tailIdx else i
    let pr := placeAt cosF sinF fullLayoutParams targets useIndex
    let tx := pr.1.1
    let ty := pr.1.2
    let pl : Placement :=
      { startX := if isRecent then tx else 400
        startY := if isRecent then ty else 300
        targetX := tx
        targetY := ty
        startTs := now
        delay := if isRecent then 0 else (i : ℤ) * 70
        duration := if isRecent then 200 else 600 + min 500 ((i : ℤ) * 8)
        finished := isRecent }
    { entry := e, pl := pl, pt := (tx, ty), ok := pr.2 } ::
      scheduleAux cosF sinF now rest (i + 1)
        (if isRecent then tailIdx + 1 else tailIdx) (targets ++ [(tx, ty)])

/-- `scheduleSpiralPositions(entries)` (Mural.tsx lines 384-450): full
spiral layout of a list of entries; the tail index starts at
`entries.length`. -/
def scheduleSpiralPositions (cosF sinF : ℚ → ℚ) (now : ℤ)
    (entries : List Entry) : List PlaceResult :=
  scheduleAux cosF sinF now entries 0 entries.length []

/-! JavaScript `Map` objects keyed by entry id are modelled as association
lists in insertion order — `Map` iteration order is insertion order, which
`insertEntryAtTail` relies on when it reads `displayPosRef.current.values()`. -/

/-- `map.get(k)`. -/
def mapGet {α : Type} (m : List (String × α)) (k : String) : Option α :=
  (m.find? fun p => decide (p.1 = k)).map (·.2)

/-- `map.set(k, v)`: overwrite in place when the key exists, append
otherwise (JavaScript `Map` keeps the original insertion position on
overwrite). -/
def mapSet {α : Type} (m : List (String × α)) (k : String) (v : α) :
    List (String × α) :=
  if m.any (fun p => decide (p.1 = k)) then
    m.map fun p => if p.1 = k then (k, v) else p
  else m ++ [(k, v)]

/-- `map.delete(k)`. -/
def mapDelete {α : Type} (m : List (String × α)) (k : String) :
    List (String × α) :=
  m.filter fun p => decide (¬ p.1 = k)

/-- One render-pass glow access (Mural.tsx lines 635-645, identical for the
resonance map and the similarity map, whose start timestamp `tsOf`
projects out): an absent record gives age `-1` and is inactive; a present
record is active iff `0 ≤ age < GLOW_DURATION`; a record found with
`age ≥ GLOW_DURATION` is deleted from the map. -/
def glowLookup {α : Type} (tsOf : α → ℤ) (m : List (String × α))
    (k : String) (now : ℤ) : Bool × List (String × α) :=
  match mapGet m k with
  | none => (false, m)
  | some v =>
    let age := now - tsOf v
    (decide (0 ≤ age) && decide (age < GLOW_DURATION),
     if GLOW_DURATION ≤ age then mapDelete m k else m)

/-- The canonical mural state the claims touch: the entity list, the three
per-entity maps, the highlight, and — as an observable of the network
boundary — the list of entity ids for which a DELETE request was issued.
Purely cosmetic state (float-away ephemera, particles, the release
message) is omitted: no claim mentions it and it feeds back into nothing. -/
structure MuralState where
  entries : List Entry
  displayPos : List (String × Placement)
  glowMap : List (String × ℤ)
  simGlowMap : List (String × (ℤ × ℚ))
  highlighted : Option String
  deleteRequests : List String
  deriving DecidableEq, Repr

/-- `handleDelete(entry)` (Mural.tsx lines 302-355), with `getUserId()`
passed in as `userId`.  `if (!userId || entry.user_id !== userId) return;`
— otherwise remove the entry from the canonical list and from every
per-entity map, clear the highlight when it pointed at the entry, and
fire-and-forget the DELETE request.  All of this happens synchronously,
before any network response. -/
def handleDelete (s : MuralState) (entry : Entry) (userId : Option String) :
    MuralState :=
  match userId with
  | none => s
  | some uid =>
    if entry.user_id = some uid then
      { entries := s.entries.filter fun e => decide (¬ e.id = entry.id)
        displayPos := mapDelete s.displayPos entry.id
        glowMap := mapDelete s.glowMap entry.id
        simGlowMap := mapDelete s.simGlowMap entry.id
        highlighted :=
          if s.highlighted = some entry.id then none else s.highlighted
        deleteRequests := s.deleteRequests ++ [entry.id] }
    else s

/-- `insertEntryAtTail(entry)` (Mural.tsx lines 453-496): collect the
targets of every display placement, place the new entry at the spiral tail
index `entries.length` with the tighter parameter set, push the entry and
record a settled placement at the target. -/
def insertEntryAtTail (cosF sinF : ℚ → ℚ) (now : ℤ) (s : MuralState)
    (entry : Entry) : MuralState :=
  let targets := s.displayPos.map fun p => (p.2.targetX, p.2.targetY)
  let idx := s.entries.length
  let pr := placeAt cosF sinF tailInsertParams targets idx
  let tx := pr.1.1
  let ty := pr.1.2
  { s with
    entries := s.entries ++ [entry]
    displayPos := mapSet s.displayPos entry.id
      { startX := tx, startY := ty, targetX := tx, targetY := ty
        startTs := now, delay := 0, duration := 200, finished := true } }

/-- One `pollNew` resolution (Mural.tsx lines 531-546) folding a fetched
entry list into the state: ids already known are skipped, the rest are
inserted at the spiral tail oldest-first (the fetch is newest-first, hence
the `reverse`). -/
def pollNew (cosF sinF : ℚ → ℚ) (now : ℤ) (s : MuralState)
    (data : List Entry) : MuralState :=
  let known := s.entries.map (·.id)
  let newItems := (data.filter fun d => decide (d.id ∉ known)).reverse
  newItems.foldl (insertEntryAtTail cosF sinF now) s

/-- The interaction state the tap/click arbitration touches: the rolling
last-tap record (`lastTapRef`), the drag flag (`isDraggingRef`), the
consumed-long-press flag (`longPressConsumedRef`), the highlight, the glow
maps, and — as ghost observables — how many times `handleSelect` and
`handleResonate` were invoked. -/
structure TapState where
  lastTap : Option (String × ℤ)
  isDragging : Bool
  longPressConsumed : Bool
  highlighted : Option String
  glowMap : List (String × ℤ)
  simGlowMap : List (String × (ℤ × ℚ))
  selectCalls : ℕ
  resonateCalls : ℕ
  deriving DecidableEq, Repr

/-- The synchronous local-state effect of `handleSelect(blob)` (Mural.tsx
lines 147-161): toggle off when the blob is already highlighted, otherwise
highlight it; either way both glow maps are cleared.  The asynchronous
similarity fetch that later refills the similarity map is outside this
step.  Every invocation bumps the ghost call counter. -/
def selectStep (s : TapState) (blobId : String) : TapState :=
  if s.highlighted = some blobId then
    { s with highlighted := none, glowMap := [], simGlowMap := []
             selectCalls := s.selectCalls + 1 }
  else
    { s with highlighted := some blobId, glowMap := [], simGlowMap := []
             selectCalls := s.selectCalls + 1 }

/-- The synchronous local-state effect of `handleResonate(targetId)`
(Mural.tsx lines 128-144): start a resonance glow at the target and
fire-and-forget the request.  Every invocation bumps the ghost counter. -/
def resonateStep (s : TapState) (blobId : String) (now : ℤ) : TapState :=
  { s with glowMap := mapSet s.glowMap blobId now
           resonateCalls := s.resonateCalls + 1 }

/-- The single-finger branch of `handleTouchStart` (Mural.tsx lines
951-977): it calls `preventDefault()` and unconditionally sets
`isDraggingRef.current = true` (line 955) before the long-press check.
Starting the long-press timer has no immediate state effect and the timer
cannot have fired within a sub-500 ms tap, so it does not appear here. -/
def touchStartOne (s : TapState) : TapState :=
  { s with isDragging := true }

/-- `handleTouchEnd` for a touch that lifted over entity `blobId` at time
`now` (Mural.tsx lines 1075-1119), in full: first the consumed-long-press
early return, then the dragging early return (lines 1094-1098 — reached
and taken by every plain single-finger tap, because its `touchstart`
already set the flag), and only then the tap branch with the 350 ms
same-id double-tap comparison.  No `handleSelect` is folded in here: the
single tap's Select would arrive via the browser's compatibility `click`,
but the single-finger `handleTouchStart` canceled the touch sequence with
`preventDefault()` (line 953), which per the Touch Events spec suppresses
all compatibility mouse events, `click` included. -/
def touchEnd (s : TapState) (blobId : String) (now : ℤ) : TapState :=
  if s.longPressConsumed then
    { s with longPressConsumed := false, isDragging := false }
  else if s.isDragging then
    { s with isDragging := false }
  else
    match s.lastTap with
    | some l =>
      if l.1 = blobId ∧ now - l.2 < 350 then
        resonateStep { s with lastTap := none } blobId now
      else
        { s with lastTap := some (blobId, now) }
    | none => { s with lastTap := some (blobId, now) }

/-- One complete single-finger touch tap landing on entity `blobId`: the
`touchstart` (which raises the dragging flag and cancels the compatibility
click) followed by the `touchend`. -/
def touchTapGesture (s : TapState) (blobId : String) (now : ℤ) : TapState :=
  touchEnd (touchStartOne s) blobId now

/-- A mouse click landing on entity `blobId`: `handleClick` (Mural.tsx
lines 1064-1073) with no pending long-press consumption — `handleSelect`. -/
def mouseClick (s : TapState) (blobId : String) : TapState :=
  selectStep s blobId

/-- A mouse double-click landing on entity `blobId`: `handleDblClick`
(Mural.tsx lines 859-864) — `handleResonate`.  The browser dispatches it
after the two `click` events of the pair. -/
def mouseDblClick (s : TapState) (blobId : String) (now : ℤ) : TapState :=
  resonateStep s blobId now

/-! The stream API route (src/unnamed/part_000). -/

/-- A row of the `entries` table as the stream route reads it. -/
structure DbRow where
  id : String
  user_id : Option String
  created_at : ℤ
  embedding : Option (List ℚ)
  deriving DecidableEq, Repr

/-- A row of the similarity query's result: the entry id and the reported
`similarity = 1 - (e.embedding <=> t.embedding)`. -/
structure SimilarRow where
  id : String
  similarity : ℚ
  deriving DecidableEq, Repr

/-- `GET /api/stream?entry_id=...` (part_000 lines 10-29): look up the
target row (`id` is the primary key), keep every other row with a non-NULL
embedding whose cosine distance to the target embedding is strictly below
0.5, order by that distance ascending, take 8, and report
`similarity = 1 - distance`.  The pgvector `<=>` operator is modelled as
the function parameter `dist`; a NULL target embedding makes every
distance comparison NULL and hence the result empty, as in SQL. -/
def streamSimilarQuery (dist : List ℚ → List ℚ → ℚ) (table : List DbRow)
    (entryId : String) : List SimilarRow :=
  match table.find? fun r => decide (r.id = entryId) with
  | none => []
  | some target =>
    match target.embedding with
    | none => []
    | some temb =>
      let cands := table.filterMap fun e =>
        match e.embedding with
        | none => none
        | some emb =>
          if ¬ e.id = entryId ∧ dist emb temb < 1/2 then
            some (e, dist emb temb)
          else none
      let sorted := cands.mergeSort fun a b => decide (a.2 ≤ b.2)
      (sorted.take 8).map fun p => { id := p.1.id, similarity := 1 - p.2 }

/-- `GET /api/stream` without `entry_id` (part_000 lines 32-38):
`ORDER BY created_at DESC LIMIT 50`. -/
def streamAllQuery (table : List DbRow) : List DbRow :=
  (table.mergeSort fun a b => decide (b.created_at ≤ a.created_at)).take 50

/-! The display-placement interpolation of the draw loop (Mural.tsx lines
606-626) and of `findBlob` (lines 848-853), which genuinely depends on the
cosine, modelled over `ℝ`. -/

/-- `Math.max(0, Math.min(1, t))`. -/
noncomputable def clamp01 (x : ℝ) : ℝ := max 0 (min 1 x)

/-- The cosine ease `0.5 - 0.5 * Math.cos(Math.PI * t)`. -/
noncomputable def easeCos (t : ℝ) : ℝ :=
  1/2 - 1/2 * Real.cos (Real.pi * t)

/-- One coordinate of the interpolated display position:
`t = clamp((now - startTs - delay) / duration, 0, 1)`,
`pos = start + (target - start) * ease(t)`. -/
noncomputable def dispCoord (startC targetC startTs delay duration now : ℝ) :
    ℝ :=
  let elapsed := now - startTs
  let tRaw := (elapsed - delay) / duration
  let t := clamp01 tRaw
  startC + (targetC - startC) * easeCos t

/-! ### Theorems -/

/-- The scale clamp always lands in the `[1/4, 6]` band. -/
theorem clampScale_bounds (s : ℚ) : 1/4 ≤ clampScale s ∧ clampScale s ≤ 6 :=
  ⟨le_max_left _ _, max_le (by norm_num) (min_le_left _ _)⟩

/-- C1: for every view state with scale in `[0.25, 6]`, every zoom factor
and every focus point inside the viewport, `zoomAround` leaves the
reference-space coordinate of the focus point unchanged: `toRef` at the
focus point is the same before and after the call, including when the new
scale got clamped.  Over the exact rational model the two coordinates are
equal outright, which subsumes the claim's floating-point tolerance. -/
theorem zoomAround_fixes_focus (v : ViewState) (cssW cssH factor fx fy : ℚ)
    (hW : 0 < cssW) (hH : 0 < cssH)
    (hs1 : 1/4 ≤ v.scale) (hs2 : v.scale ≤ 6)
    (hx1 : 0 ≤ fx) (hx2 : fx ≤ cssW) (hy1 : 0 ≤ fy) (hy2 : fy ≤ cssH) :
    toRef (zoomAround v cssW cssH factor (some fx) (some fy)) cssW cssH fx fy
      = toRef v cssW cssH fx fy := by
  simp only [toRef, zoomAround, Option.getD_some]
  exact Prod.ext (by ring) (by ring)

/-- Witness for C1 at a concrete view state, viewport, factor and focus. -/
theorem zoomAround_fixes_focus_witness :
    toRef (zoomAround ⟨1, 400, 300⟩ 800 600 2 (some 100) (some 50))
        800 600 100 50
      = toRef (⟨1, 400, 300⟩ : ViewState) 800 600 100 50 :=
  zoomAround_fixes_focus ⟨1, 400, 300⟩ 800 600 2 100 50 (by norm_num)
    (by norm_num) (by norm_num) (by norm_num) (by norm_num) (by norm_num)
    (by norm_num) (by norm_num)

/-- Every single view operation leaves the scale inside `[1/4, 6]`,
whatever the previous scale was, because each writes either a clamped
value or the constant 1. -/
theorem applyViewOp_scale_bounds (v : ViewState) (op : ViewOp) :
    1/4 ≤ (applyViewOp v op).scale ∧ (applyViewOp v op).scale ≤ 6 := by
  cases op with
  | zoom w h f x? y? =>
    simpa [applyViewOp, zoomAround] using clampScale_bounds (v.scale * f)
  | setScale w h s foc? =>
    cases foc? with
    | none => simpa [applyViewOp, setViewScale] using clampScale_bounds s
    | some f => simpa [applyViewOp, setViewScale] using clampScale_bounds s
  | reset => simp [applyViewOp, resetView]; norm_num

/-- Auxiliary induction for C9 over an operation list. -/
theorem applyViewOps_scale_bounds (ops : List ViewOp) :
    ∀ v : ViewState, 1/4 ≤ v.scale → v.scale ≤ 6 →
      1/4 ≤ (applyViewOps v ops).scale ∧ (applyViewOps v ops).scale ≤ 6 := by
  induction ops with
  | nil => intro v h1 h2; exact ⟨h1, h2⟩
  | cons op rest ih =>
    intro v h1 h2
    have h := applyViewOp_scale_bounds v op
    exact ih (applyViewOp v op) h.1 h.2

/-- C9: starting from the initial zoom scale 1, no sequence of zoom
operations — `zoomAround` from the buttons, `setViewScale` from wheel or
pinch, `resetView` — can drive the view scale outside `[0.25, 6]`,
whatever the factors. -/
theorem view_scale_invariant (ops : List ViewOp) :
    1/4 ≤ (applyViewOps initialView ops).scale ∧
      (applyViewOps initialView ops).scale ≤ 6 :=
  applyViewOps_scale_bounds ops initialView (by norm_num [initialView])
    (by norm_num [initialView])

/-- Deleting a key from an association map makes its lookup absent. -/
theorem mapGet_mapDelete {α : Type} (m : List (String × α)) (k : String) :
    mapGet (mapDelete m k) k = none := by
  induction m with
  | nil => rfl
  | cons p rest ih =>
    by_cases h : p.1 = k
    · simpa [mapDelete, mapGet, h] using ih
    · simpa [mapDelete, mapGet, h] using ih

/-- C4 counterexample: the claim quantifies over every `ε > 0`, but at
`ε = GLOW_DURATION + 1 = 4501` the lookup time `T + D − ε = T − 1`
precedes the glow's start timestamp, the age is negative, and the lookup
treats the glow as inactive — contradicting "a lookup at `T + D − ε`
(`ε > 0`) treats the glow as active" at the concrete record
`"a" ↦ T = 10000`. -/
theorem glow_window_counterexample :
    (0 : ℤ) < 4501 ∧
      (glowLookup (fun t => t) [("a", (10000 : ℤ))] "a"
        (10000 + GLOW_DURATION - 4501)).1 = false := by
  constructor
  · norm_num
  · rfl

/-- C4 (amended): a glow record (resonance or similarity — the timestamp
projection `tsOf` covers both map shapes) with start timestamp `T` and
duration `D = GLOW_DURATION = 4500` ms is treated as active by a
render-pass lookup at `T + D − ε` for every `0 < ε ≤ D` (the claim's
"every `ε > 0`" fails only for `ε > D`, where the lookup time precedes the
glow's start), is treated as inactive at `T + D + ε` for every `ε > 0`,
and any access finding age `≥ D` deletes the record from its map. -/
theorem glow_expiry_spec {α : Type} (tsOf : α → ℤ) (m : List (String × α))
    (k : String) (v : α) (T eps : ℤ)
    (hget : mapGet m k = some v) (hts : tsOf v = T) :
    (0 < eps → eps ≤ GLOW_DURATION →
      (glowLookup tsOf m k (T + GLOW_DURATION - eps)).1 = true ∧
      (glowLookup tsOf m k (T + GLOW_DURATION - eps)).2 = m) ∧
    (0 < eps → (glowLookup tsOf m k (T + GLOW_DURATION + eps)).1 = false) ∧
    (∀ now : ℤ, GLOW_DURATION ≤ now - T →
      mapGet (glowLookup tsOf m k now).2 k = none) := by
  refine ⟨?_, ?_, ?_⟩
  · intro h1 h2
    have hlt : ¬ GLOW_DURATION ≤ T + GLOW_DURATION - eps - tsOf v := by
      rw [hts]; omega
    constructor
    · simp only [glowLookup, hget, decide_eq_true_eq, Bool.and_eq_true, hts]
      omega
    · simp [glowLookup, hget, hlt]
  · intro h1
    have hnlt : ¬ (T + GLOW_DURATION + eps - T < GLOW_DURATION) := by omega
    simp [glowLookup, hget, hts, hnlt]
  · intro now hnow
    have hge : GLOW_DURATION ≤ now - tsOf v := by rw [hts]; exact hnow
    simp [glowLookup, hget, hge, mapGet_mapDelete]

/-- Witness for C4 (amended) on a concrete similarity-glow record. -/
theorem glow_expiry_witness :
    (glowLookup Prod.fst [("a", ((100 : ℤ), (3 : ℚ)/5))] "a"
        (100 + GLOW_DURATION - 1)).1 = true ∧
    (glowLookup Prod.fst [("a", ((100 : ℤ), (3 : ℚ)/5))] "a"
        (100 + GLOW_DURATION + 1)).1 = false ∧
    mapGet (glowLookup Prod.fst [("a", ((100 : ℤ), (3 : ℚ)/5))] "a"
        (100 + GLOW_DURATION + 4500)).2 "a" = none := by
  have h := glow_expiry_spec Prod.fst [("a", ((100 : ℤ), (3 : ℚ)/5))] "a"
    ((100 : ℤ), (3 : ℚ)/5) 100 1 (by rfl) rfl
  exact ⟨(h.1 (by norm_num) (by norm_num [GLOW_DURATION])).1,
    h.2.1 (by norm_num),
    h.2.2 (100 + GLOW_DURATION + 4500) (by norm_num [GLOW_DURATION])⟩

/-- C5 counterexample: a touch double-tap (two single-finger taps on the
same entity 100 ms apart, inside the 350 ms window) triggers zero Resonate
calls, not exactly one — each tap's `touchstart` sets the dragging flag,
so each `touchend` takes the dragging early return (Mural.tsx lines
1094-1098) before the double-tap branch, which is unreachable for plain
taps; no Select fires either, the canceled `touchstart` having suppressed
the compatibility click. -/
theorem double_tap_counterexample :
    ((100 : ℤ) - 0 < 350) ∧
    (touchTapGesture (touchTapGesture
        ⟨none, false, false, none, [], [], 0, 0⟩ "b" 0) "b" 100).resonateCalls
      = 0 ∧
    (touchTapGesture (touchTapGesture
        ⟨none, false, false, none, [], [], 0, 0⟩ "b" 0) "b" 100).selectCalls
      = 0 := by
  refine ⟨by norm_num, ?_, ?_⟩ <;> rfl

/-- C5 (amended): on touch, the double-tap branch of `handleTouchEnd` is
unreachable for single-finger taps — every single-finger `touchstart`
sets the dragging flag and `touchend` returns before the tap branch, and
the `touchstart`'s `preventDefault` suppresses the compatibility click —
so any pair of touch taps on the same entity, inside or outside the 350 ms
window, triggers zero Resonate and zero Select calls and never records a
last-tap.  On mouse, two clicks on the same entity trigger two Select
calls (one Select plus a toggle-off: the highlight ends cleared) and no
Resonate; a double-click additionally fires `dblclick` after its two
click events, adding exactly one Resonate to the one-Select-plus-toggle
pair. -/
theorem tap_arbitration_spec (b : String) (t1 t2 : ℤ) (s : TapState)
    (hlt : s.lastTap = none) (hlp : s.longPressConsumed = false)
    (hhi : s.highlighted = none) (hsc : s.selectCalls = 0)
    (hrc : s.resonateCalls = 0) :
    ((touchTapGesture (touchTapGesture s b t1) b t2).resonateCalls = 0 ∧
     (touchTapGesture (touchTapGesture s b t1) b t2).selectCalls = 0 ∧
     (touchTapGesture (touchTapGesture s b t1) b t2).lastTap = none) ∧
    ((mouseClick (mouseClick s b) b).resonateCalls = 0 ∧
     (mouseClick (mouseClick s b) b).selectCalls = 2 ∧
     (mouseClick (mouseClick s b) b).highlighted = none) ∧
    ((mouseDblClick (mouseClick (mouseClick s b) b) b t2).resonateCalls = 1 ∧
     (mouseDblClick (mouseClick (mouseClick s b) b) b t2).selectCalls = 2 ∧
     (mouseDblClick (mouseClick (mouseClick s b) b) b t2).highlighted
       = none) := by
  have hb : ¬ s.highlighted = some b := by rw [hhi]; simp
  refine ⟨?_, ?_, ?_⟩
  · simp [touchTapGesture, touchStartOne, touchEnd, hlt, hlp, hsc, hrc]
  · simp [mouseClick, selectStep, hb, hsc, hrc]
  · simp [mouseClick, mouseDblClick, selectStep, resonateStep, hb, hsc, hrc]

/-- Witness for C5 (amended) at a concrete in-window touch tap pair, a
concrete mouse click pair, and the concrete mouse double-click sequence. -/
theorem tap_arbitration_witness :
    ((touchTapGesture (touchTapGesture
        ⟨none, false, false, none, [], [], 0, 0⟩ "b" 5) "b" 200).resonateCalls
        = 0 ∧
      (touchTapGesture (touchTapGesture
        ⟨none, false, false, none, [], [], 0, 0⟩ "b" 5) "b" 200).selectCalls
        = 0) ∧
    (mouseClick (mouseClick
        ⟨none, false, false, none, [], [], 0, 0⟩ "c") "c").selectCalls = 2 ∧
    (mouseDblClick (mouseClick (mouseClick
        ⟨none, false, false, none, [], [], 0, 0⟩ "d") "d")
        "d" 900).resonateCalls = 1 := by
  have h1 := tap_arbitration_spec "b" 5 200
    ⟨none, false, false, none, [], [], 0, 0⟩ rfl rfl rfl rfl rfl
  have h2 := tap_arbitration_spec "c" 5 900
    ⟨none, false, false, none, [], [], 0, 0⟩ rfl rfl rfl rfl rfl
  have h3 := tap_arbitration_spec "d" 5 900
    ⟨none, false, false, none, [], [], 0, 0⟩ rfl rfl rfl rfl rfl
  exact ⟨⟨h1.1.1, h1.1.2.1⟩, h2.2.1.2.1, h3.2.2.1⟩

/-- `insertEntryAtTail` appends exactly its entry to the entity list. -/
theorem insertEntryAtTail_entries (cosF sinF : ℚ → ℚ) (now : ℤ)
    (s : MuralState) (e : Entry) :
    (insertEntryAtTail cosF sinF now s e).entries = s.entries ++ [e] := rfl

/-- Folding a list of new items through `insertEntryAtTail` appends them
all to the entity list. -/
theorem foldl_insertEntryAtTail_entries (cosF sinF : ℚ → ℚ) (now : ℤ) :
    ∀ (items : List Entry) (s : MuralState),
      (items.foldl (insertEntryAtTail cosF sinF now) s).entries
        = s.entries ++ items := by
  intro items
  induction items with
  | nil => intro s; simp
  | cons x xs ih =>
    intro s
    calc ((x :: xs).foldl (insertEntryAtTail cosF sinF now) s).entries
        = (xs.foldl (insertEntryAtTail cosF sinF now)
            (insertEntryAtTail cosF sinF now s x)).entries := rfl
      _ = (s.entries ++ [x]) ++ xs := by
            rw [ih, insertEntryAtTail_entries]
      _ = s.entries ++ (x :: xs) := by simp

/-- C6 counterexample: after an optimistic owned delete the entity is gone
from the canonical list, yet the very next `pollNew` whose fetched data
still contains it re-inserts it at the spiral tail — the code keeps no
tombstone set, so the claim's "must not resurrect it in the visible set"
fails at this concrete state. -/
theorem delete_resurrection_counterexample :
    "e1" ∉ (handleDelete
        ⟨[⟨"e1", some "u", 0, 0, 0⟩],
          [("e1", ⟨400, 300, 416, 300, 0, 0, 600, false⟩)], [], [],
          some "e1", []⟩
        ⟨"e1", some "u", 0, 0, 0⟩ (some "u")).entries.map (·.id) ∧
    "e1" ∈ (pollNew (fun a => 10 * a) (fun _ => 0) 100
        (handleDelete
          ⟨[⟨"e1", some "u", 0, 0, 0⟩],
            [("e1", ⟨400, 300, 416, 300, 0, 0, 600, false⟩)], [], [],
            some "e1", []⟩
          ⟨"e1", some "u", 0, 0, 0⟩ (some "u"))
        [⟨"e1", some "u", 0, 0, 0⟩]).entries.map (·.id) := by
  refine ⟨?_, ?_⟩
  · decide
  · decide

/-- C6 (amended): `handleDelete` on an entity owned by the current user
synchronously — before any network response — removes it from the
canonical entry list and from the display-position, resonance-glow and
similarity-glow maps, clears the highlight when it pointed at the entity,
and issues exactly one deletion request; on an entity not owned by the
current user (or with no user id available) it changes nothing and issues
no request.  However, a subsequent full re-fetch that still contains the
deleted entity re-inserts it at the spiral tail: `pollNew` only skips ids
currently present, and the delete left no tombstone, so the entity is
resurrected in the visible set rather than kept out. -/
theorem handleDelete_spec (cosF sinF : ℚ → ℚ) (now : ℤ) (s : MuralState)
    (entry : Entry) (uid : String) :
    (∀ userId : Option String,
      userId = none ∨ ¬ entry.user_id = userId →
        handleDelete s entry userId = s) ∧
    (entry.user_id = some uid →
      (∀ e ∈ (handleDelete s entry (some uid)).entries, ¬ e.id = entry.id) ∧
      mapGet (handleDelete s entry (some uid)).displayPos entry.id = none ∧
      mapGet (handleDelete s entry (some uid)).glowMap entry.id = none ∧
      mapGet (handleDelete s entry (some uid)).simGlowMap entry.id = none ∧
      ¬ (handleDelete s entry (some uid)).highlighted = some entry.id ∧
      (handleDelete s entry (some uid)).deleteRequests
        = s.deleteRequests ++ [entry.id]) ∧
    (entry.user_id = some uid → ∀ data : List Entry, entry ∈ data →
      entry ∈ (pollNew cosF sinF now (handleDelete s entry (some uid))
        data).entries) := by
  refine ⟨?_, ?_, ?_⟩
  · rintro userId (rfl | hne)
    · rfl
    · cases userId with
      | none => rfl
      | some u =>
        simp only [handleDelete]
        rw [if_neg]
        intro hc
        exact hne (by rw [hc])
  · intro hown
    simp only [handleDelete, hown, if_pos rfl]
    refine ⟨?_, mapGet_mapDelete _ _, mapGet_mapDelete _ _,
      mapGet_mapDelete _ _, ?_, rfl⟩
    · intro e he
      have := List.of_mem_filter he
      simpa using this
    · by_cases hh : s.highlighted = some entry.id
      · simp [hh]
      · simp [hh]
  · intro hown data hmem
    have hdel : ∀ e ∈ (handleDelete s entry (some uid)).entries,
        ¬ e.id = entry.id := by
      intro e he
      simp only [handleDelete, hown, if_pos rfl] at he
      have := List.of_mem_filter he
      simpa using this
    have hunknown :
        entry.id ∉ (handleDelete s entry (some uid)).entries.map (·.id) := by
      intro hc
      obtain ⟨e, he, heq⟩ := List.mem_map.mp hc
      exact hdel e he heq
    simp only [pollNew]
    rw [foldl_insertEntryAtTail_entries]
    refine List.mem_append.mpr (Or.inr ?_)
    rw [List.mem_reverse]
    exact List.mem_filter.mpr ⟨hmem, by simpa using hunknown⟩

/-- Witness for C6 (amended) at a concrete two-entity state: the non-owned
delete is a no-op, the owned delete scrubs every map, and the poll with
stale data resurrects the deleted entity. -/
theorem handleDelete_witness :
    (handleDelete
        ⟨[⟨"e1", some "u", 0, 0, 0⟩], [], [], [], none, []⟩
        ⟨"e1", some "u", 0, 0, 0⟩ (some "other"))
      = ⟨[⟨"e1", some "u", 0, 0, 0⟩], [], [], [], none, []⟩ ∧
    mapGet (handleDelete
        ⟨[⟨"e1", some "u", 0, 0, 0⟩],
          [("e1", ⟨400, 300, 416, 300, 0, 0, 600, false⟩)],
          [("e1", 50)], [("e1", (60, 1/2))], some "e1", []⟩
        ⟨"e1", some "u", 0, 0, 0⟩ (some "u")).displayPos "e1" = none ∧
    (⟨"e1", some "u", 0, 0, 0⟩ : Entry) ∈ (pollNew (fun a => 10 * a)
        (fun _ => 0) 100
        (handleDelete
          ⟨[⟨"e1", some "u", 0, 0, 0⟩],
            [("e1", ⟨400, 300, 416, 300, 0, 0, 600, false⟩)],
            [("e1", 50)], [("e1", (60, 1/2))], some "e1", []⟩
          ⟨"e1", some "u", 0, 0, 0⟩ (some "u"))
        [⟨"e1", some "u", 0, 0, 0⟩]).entries := by
  have h1 := handleDelete_spec (fun a => 10 * a) (fun _ => 0) 100
    ⟨[⟨"e1", some "u", 0, 0, 0⟩], [], [], [], none, []⟩
    ⟨"e1", some "u", 0, 0, 0⟩ "u"
  have h2 := handleDelete_spec (fun a => 10 * a) (fun _ => 0) 100
    ⟨[⟨"e1", some "u", 0, 0, 0⟩],
      [("e1", ⟨400, 300, 416, 300, 0, 0, 600, false⟩)],
      [("e1", 50)], [("e1", (60, 1/2))], some "e1", []⟩
    ⟨"e1", some "u", 0, 0, 0⟩ "u"
  exact ⟨h1.1 (some "other") (Or.inr (by decide)),
    (h2.2.1 rfl).2.1,
    h2.2.2 rfl [⟨"e1", some "u", 0, 0, 0⟩] (by decide)⟩

/-- C7: the spiral layout is a deterministic function of its inputs — two
runs of the full-layout pass (and of a single tail insertion) over equal
entity lists, equal current time and equal prior state produce identical
target coordinates.  The embedding is a pure function because the source
layout code draws on no randomness: `Math.random()` occurs in Mural.tsx
only in the cosmetic deletion-particle spawner, never in placement. -/
theorem layout_deterministic (cosF sinF : ℚ → ℚ) (now now2 : ℤ)
    (ents ents2 : List Entry) (s s2 : MuralState) (e e2 : Entry)
    (h1 : now = now2) (h2 : ents = ents2) (h3 : s = s2) (h4 : e = e2) :
    scheduleSpiralPositions cosF sinF now ents
        = scheduleSpiralPositions cosF sinF now2 ents2 ∧
      insertEntryAtTail cosF sinF now s e
        = insertEntryAtTail cosF sinF now2 s2 e2 := by
  subst h1; subst h2; subst h3; subst h4
  exact ⟨rfl, rfl⟩

/-- Witness for C7 on a concrete two-entity layout and one tail insert. -/
theorem layout_deterministic_witness :
    scheduleSpiralPositions (fun a => 10 * a) (fun _ => 0) 1000000
        [⟨"a", none, 0, 0, 0⟩, ⟨"b", none, 0, 0, 0⟩]
      = scheduleSpiralPositions (fun a => 10 * a) (fun _ => 0) 1000000
        [⟨"a", none, 0, 0, 0⟩, ⟨"b", none, 0, 0, 0⟩] ∧
    insertEntryAtTail (fun a => 10 * a) (fun _ => 0) 1000000
        ⟨[], [], [], [], none, []⟩ ⟨"c", none, 0, 0, 0⟩
      = insertEntryAtTail (fun a => 10 * a) (fun _ => 0) 1000000
        ⟨[], [], [], [], none, []⟩ ⟨"c", none, 0, 0, 0⟩ :=
  layout_deterministic (fun a => 10 * a) (fun _ => 0) 1000000 1000000
    [⟨"a", none, 0, 0, 0⟩, ⟨"b", none, 0, 0, 0⟩]
    [⟨"a", none, 0, 0, 0⟩, ⟨"b", none, 0, 0, 0⟩]
    ⟨[], [], [], [], none, []⟩ ⟨[], [], [], [], none, []⟩
    ⟨"c", none, 0, 0, 0⟩ ⟨"c", none, 0, 0, 0⟩ rfl rfl rfl rfl

/-- C10: the fetch-all stream query returns at most 50 rows, each drawn
from the table, ordered by creation time descending, and every returned
row is at least as recent as every row the 50-limit cut off — the mural's
initial load and polling never observe an entry older than the 50th most
recent. -/
theorem stream_all_spec (table : List DbRow) :
    (streamAllQuery table).length ≤ 50 ∧
    (∀ r ∈ streamAllQuery table, r ∈ table) ∧
    (streamAllQuery table).Pairwise
      (fun a b => b.created_at ≤ a.created_at) ∧
    (∀ a ∈ streamAllQuery table,
      ∀ b ∈ (table.mergeSort fun a b =>
          decide (b.created_at ≤ a.created_at)).drop 50,
        b.created_at ≤ a.created_at) := by
  have htrans : ∀ a b c : DbRow,
      (fun a b => decide (b.created_at ≤ a.created_at)) a b →
      (fun a b => decide (b.created_at ≤ a.created_at)) b c →
      (fun a b => decide (b.created_at ≤ a.created_at)) a c := by
    intro a b c hab hbc
    simp only [decide_eq_true_eq] at *
    exact le_trans hbc hab
  have htotal : ∀ a b : DbRow,
      ((fun a b => decide (b.created_at ≤ a.created_at)) a b ||
       (fun a b => decide (b.created_at ≤ a.created_at)) b a) = true := by
    intro a b
    simp only [Bool.or_eq_true, decide_eq_true_eq]
    exact le_total b.created_at a.created_at
  have hsorted := List.sorted_mergeSort htrans htotal table
  refine ⟨?_, ?_, ?_, ?_⟩
  · simpa [streamAllQuery] using List.length_take_le 50 _
  · intro r hr
    have : r ∈ table.mergeSort fun a b =>
        decide (b.created_at ≤ a.created_at) :=
      (List.take_sublist _ _).subset hr
    exact List.mem_mergeSort.mp this
  · have := hsorted.sublist (List.take_sublist 50 _)
    exact this.imp (by intro a b h; simpa using h)
  · intro a ha b hb
    have hsplit := hsorted
    rw [← List.take_append_drop 50 (table.mergeSort fun a b =>
      decide (b.created_at ≤ a.created_at)), List.pairwise_append] at hsplit
    have := hsplit.2.2 a ha b hb
    simpa using this

/-- C8: the fetch-similar query returns at most 8 rows, never the queried
entry itself, only rows whose cosine distance to the target embedding is
strictly below 0.5 — hence reported similarity `1 - distance` strictly
above 0.5 — with every similarity inside `[0, 1]` (the pgvector cosine
distance is nonnegative, the hypothesis on `dist`), ordered descending by
similarity. -/
theorem similar_query_spec (dist : List ℚ → List ℚ → ℚ)
    (hd : ∀ a b, 0 ≤ dist a b) (table : List DbRow) (entryId : String) :
    (streamSimilarQuery dist table entryId).length ≤ 8 ∧
    (∀ r ∈ streamSimilarQuery dist table entryId,
      ¬ r.id = entryId ∧ 1/2 < r.similarity ∧ 0 ≤ r.similarity ∧
        r.similarity ≤ 1) ∧
    (streamSimilarQuery dist table entryId).Pairwise
      (fun a b => b.similarity ≤ a.similarity) := by
  unfold streamSimilarQuery
  cases hfind : table.find? fun r => decide (r.id = entryId) with
  | none => simp
  | some target =>
    dsimp only
    cases hemb : target.embedding with
    | none => simp
    | some temb =>
      dsimp only
      have hmemc : ∀ p ∈ table.filterMap fun e =>
          match e.embedding with
          | none => none
          | some emb =>
            if ¬ e.id = entryId ∧ dist emb temb < 1/2 then
              some (e, dist emb temb)
            else none,
          ¬ p.1.id = entryId ∧ p.2 < 1/2 ∧ 0 ≤ p.2 := by
        intro p hp
        obtain ⟨a, _, hfa⟩ := List.mem_filterMap.mp hp
        cases haemb : a.embedding with
        | none => rw [haemb] at hfa; simp at hfa
        | some emb =>
          rw [haemb] at hfa
          dsimp only at hfa
          by_cases hcond : ¬ a.id = entryId ∧ dist emb temb < 1/2
          · rw [if_pos hcond] at hfa
            obtain rfl : (a, dist emb temb) = p := Option.some.inj hfa
            exact ⟨hcond.1, hcond.2, hd emb temb⟩
          · rw [if_neg hcond] at hfa; simp at hfa
      have htrans : ∀ a b c : DbRow × ℚ,
          (fun a b => decide (a.2 ≤ b.2)) a b →
          (fun a b => decide (a.2 ≤ b.2)) b c →
          (fun a b => decide (a.2 ≤ b.2)) a c := by
        intro a b c hab hbc
        simp only [decide_eq_true_eq] at *
        exact le_trans hab hbc
      have htotal : ∀ a b : DbRow × ℚ,
          ((fun a b => decide (a.2 ≤ b.2)) a b ||
           (fun a b => decide (a.2 ≤ b.2)) b a) = true := by
        intro a b
        simp only [Bool.or_eq_true, decide_eq_true_eq]
        exact le_total a.2 b.2
      have hsorted := List.sorted_mergeSort htrans htotal
        (table.filterMap fun e =>
          match e.embedding with
          | none => none
          | some emb =>
            if ¬ e.id = entryId ∧ dist emb temb < 1/2 then
              some (e, dist emb temb)
            else none)
      refine ⟨?_, ?_, ?_⟩
      · rw [List.length_map]
        exact List.length_take_le 8 _
      · intro r hr
        obtain ⟨p, hp, hpr⟩ := List.mem_map.mp hr
        have hpc := List.mem_mergeSort.mp ((List.take_sublist _ _).subset hp)
        obtain ⟨hid, hlt, hnn⟩ := hmemc p hpc
        rw [← hpr]
        refine ⟨hid, by simp; linarith, by simp; linarith, by simp; linarith⟩
      · have hst := hsorted.sublist (List.take_sublist 8 _)
        rw [List.pairwise_map]
        refine hst.imp ?_
        intro a b h
        simp only [decide_eq_true_eq] at h
        simp only []
        linarith

/-- Witness for C8 on a concrete five-row table with a squared-difference
distance (nonnegative, as cosine distance is). -/
theorem similar_query_witness :
    (streamSimilarQuery (fun a b => (a.headD 0 - b.headD 0) ^ 2)
        [⟨"t", none, 0, some [0]⟩, ⟨"r1", none, 0, some [1/2]⟩,
         ⟨"r2", none, 0, some [1/10]⟩, ⟨"r3", none, 0, some [2]⟩,
         ⟨"r4", none, 0, none⟩] "t").length ≤ 8 ∧
    (∀ r ∈ streamSimilarQuery (fun a b => (a.headD 0 - b.headD 0) ^ 2)
        [⟨"t", none, 0, some [0]⟩, ⟨"r1", none, 0, some [1/2]⟩,
         ⟨"r2", none, 0, some [1/10]⟩, ⟨"r3", none, 0, some [2]⟩,
         ⟨"r4", none, 0, none⟩] "t",
      ¬ r.id = "t" ∧ 1/2 < r.similarity ∧ 0 ≤ r.similarity ∧
        r.similarity ≤ 1) ∧
    (streamSimilarQuery (fun a b => (a.headD 0 - b.headD 0) ^ 2)
        [⟨"t", none, 0, some [0]⟩, ⟨"r1", none, 0, some [1/2]⟩,
         ⟨"r2", none, 0, some [1/10]⟩, ⟨"r3", none, 0, some [2]⟩,
         ⟨"r4", none, 0, none⟩] "t").Pairwise
      (fun a b => b.similarity ≤ a.similarity) :=
  similar_query_spec (fun a b => (a.headD 0 - b.headD 0) ^ 2)
    (fun a b => sq_nonneg _)
    [⟨"t", none, 0, some [0]⟩, ⟨"r1", none, 0, some [1/2]⟩,
     ⟨"r2", none, 0, some [1/10]⟩, ⟨"r3", none, 0, some [2]⟩,
     ⟨"r4", none, 0, none⟩] "t"

/-- When the retry loop reports success, the candidate it returns was the
one that passed the collision check. -/
theorem nudge_ok_noClash (cosF sinF : ℚ → ℚ) (p : SpiralParams)
    (targets : List (ℤ × ℤ)) :
    ∀ (fuel : ℕ) (angle : ℚ) (c : ℤ × ℤ),
      (nudge cosF sinF p targets fuel angle c).2 = true →
      hasClash targets (nudge cosF sinF p targets fuel angle c).1 p.minDist
        = false := by
  intro fuel
  induction fuel with
  | zero =>
    intro angle c h
    simp [nudge] at h
  | succ n ih =>
    intro angle c h
    cases hc : hasClash targets c p.minDist with
    | true =>
      rw [nudge] at h ⊢
      simp only [hc, if_true] at h ⊢
      exact ih _ _ h
    | false =>
      rw [nudge]
      simp [hc]

/-- A candidate passing the collision check keeps squared distance at
least `minDist²` to every already-placed target. -/
theorem hasClash_false_far (targets : List (ℤ × ℤ)) (c : ℤ × ℤ) (m : ℚ)
    (h : hasClash targets c m = false) :
    ∀ t ∈ targets, m ^ 2 ≤ ((distSq t c : ℤ) : ℚ) := by
  intro t ht
  by_contra hcon
  push_neg at hcon
  have : hasClash targets c m = true := by
    simp only [hasClash, List.any_eq_true]
    exact ⟨t, ht, by simpa using hcon⟩
  rw [this] at h
  simp at h

/-- A placement that did not exhaust its retry budget is at squared
distance at least `minDist²` from every already-placed target. -/
theorem placeAt_ok_far (cosF sinF : ℚ → ℚ) (p : SpiralParams)
    (targets : List (ℤ × ℤ)) (idx : ℕ)
    (h : (placeAt cosF sinF p targets idx).2 = true) :
    ∀ t ∈ targets,
      p.minDist ^ 2 ≤ ((distSq t (placeAt cosF sinF p targets idx).1 : ℤ) : ℚ) :=
  hasClash_false_far targets _ p.minDist
    (nudge_ok_noClash cosF sinF p targets 24 _ _ h)

/-- Induction for C2: any element of a full-layout pass whose placement
did not exhaust the retry budget is far (at least `minDist`) from every
target accumulated before it — both the targets handed in and those placed
earlier in the pass. -/
theorem scheduleAux_far (cosF sinF : ℚ → ℚ) (now : ℤ) :
    ∀ (ents : List Entry) (i tailIdx : ℕ) (targets : List (ℤ × ℤ)) (j : ℕ)
      (hj : j < (scheduleAux cosF sinF now ents i tailIdx targets).length),
      ((scheduleAux cosF sinF now ents i tailIdx targets).get ⟨j, hj⟩).ok
        = true →
      ∀ t : ℤ × ℤ,
        (t ∈ targets ∨
          t ∈ ((scheduleAux cosF sinF now ents i tailIdx targets).take j).map
            (fun r => r.pt)) →
        fullLayoutParams.minDist ^ 2 ≤
          ((distSq t
            ((scheduleAux cosF sinF now ents i tailIdx targets).get
              ⟨j, hj⟩).pt : ℤ) : ℚ) := by
  intro ents
  induction ents with
  | nil =>
    intro i tailIdx targets j hj
    simp [scheduleAux] at hj
  | cons e rest ih =>
    intro i tailIdx targets j hj hok t ht
    cases j with
    | zero =>
      have hok2 : (placeAt cosF sinF fullLayoutParams targets
          (if decide (now - e.created_at < 5000) = true then tailIdx else i)).2
            = true := hok
      have hfar := placeAt_ok_far cosF sinF fullLayoutParams targets _ hok2
      rcases ht with h | h
      · exact hfar t h
      · simp at h
    | succ k =>
      have hj2 : k < (scheduleAux cosF sinF now rest (i + 1)
          (if decide (now - e.created_at < 5000) = true then tailIdx + 1
            else tailIdx)
          (targets ++ [(placeAt cosF sinF fullLayoutParams targets
            (if decide (now - e.created_at < 5000) = true then tailIdx
              else i)).1])).length :=
        Nat.lt_of_succ_lt_succ hj
      have hok2 : ((scheduleAux cosF sinF now rest (i + 1)
          (if decide (now - e.created_at < 5000) = true then tailIdx + 1
            else tailIdx)
          (targets ++ [(placeAt cosF sinF fullLayoutParams targets
            (if decide (now - e.created_at < 5000) = true then tailIdx
              else i)).1])).get ⟨k, hj2⟩).ok = true := hok
      have ht2 : t ∈ (targets ++ [(placeAt cosF sinF fullLayoutParams targets
            (if decide (now - e.created_at < 5000) = true then tailIdx
              else i)).1]) ∨
          t ∈ ((scheduleAux cosF sinF now rest (i + 1)
            (if decide (now - e.created_at < 5000) = true then tailIdx + 1
              else tailIdx)
            (targets ++ [(placeAt cosF sinF fullLayoutParams targets
              (if decide (now - e.created_at < 5000) = true then tailIdx
                else i)).1])).take k).map (fun r => r.pt) := by
        rcases ht with h | h
        · exact Or.inl (List.mem_append.mpr (Or.inl h))
        · have h2 : t ∈ (placeAt cosF sinF fullLayoutParams targets
              (if decide (now - e.created_at < 5000) = true then tailIdx
                else i)).1 ::
              ((scheduleAux cosF sinF now rest (i + 1)
                (if decide (now - e.created_at < 5000) = true then tailIdx + 1
                  else tailIdx)
                (targets ++ [(placeAt cosF sinF fullLayoutParams targets
                  (if decide (now - e.created_at < 5000) = true then tailIdx
                    else i)).1])).take k).map (fun r => r.pt) := h
          rcases List.mem_cons.mp h2 with h3 | h3
          · exact Or.inl (List.mem_append.mpr (Or.inr (by simp [h3])))
          · exact Or.inr h3
      exact ih (i + 1) _ _ k hj2 hok2 t ht2

/-- The full-layout minimum distance evaluates to 76 reference units:
`max(ceil(18 * 4.2), 18 * 2 + 24) = max(76, 60)`. -/
theorem fullLayoutParams_minDist_eq : fullLayoutParams.minDist = 76 := by
  have hc : (⌈(378 : ℚ)/5⌉ : ℤ) = 76 := by
    rw [Int.ceil_eq_iff]
    constructor <;> norm_num
  norm_num [fullLayoutParams, BLOB_RADIUS, hc, sup_eq_max]

/-- C2: in a single full-layout pass of `scheduleSpiralPositions`, any two
distinct entities whose later placement did not exhaust the 24-attempt
collision retry budget end up with squared Euclidean distance at least
`76²` between their target positions — that is, Euclidean distance at
least the configured full-layout minimum distance
`max(ceil(BLOB_RADIUS*4.2), BLOB_RADIUS*2+24) = 76`.  When the budget was
exhausted while placing the later entity (`ok = false`) the last candidate
is accepted even in collision, exactly the claim's exception. -/
theorem spiral_min_separation (cosF sinF : ℚ → ℚ) (now : ℤ)
    (entries : List Entry) (i j : ℕ) (hij : i < j)
    (hj : j < (scheduleSpiralPositions cosF sinF now entries).length)
    (hok : ((scheduleSpiralPositions cosF sinF now entries).get
      ⟨j, hj⟩).ok = true) :
    (76 : ℚ) ^ 2 ≤
      ((distSq
        ((scheduleSpiralPositions cosF sinF now entries).get
          ⟨i, lt_trans hij hj⟩).pt
        ((scheduleSpiralPositions cosF sinF now entries).get
          ⟨j, hj⟩).pt : ℤ) : ℚ) := by
  have hi := lt_trans hij hj
  have hlen : i < ((scheduleSpiralPositions cosF sinF now entries).take
      j).length := by
    rw [List.length_take]
    exact lt_min hij hi
  have hget : ((scheduleSpiralPositions cosF sinF now entries).take j).get
      ⟨i, hlen⟩
      = (scheduleSpiralPositions cosF sinF now entries).get ⟨i, hi⟩ := by
    simp [List.get_eq_getElem, List.getElem_take]
  have hmem : ((scheduleSpiralPositions cosF sinF now entries).get
      ⟨i, hi⟩).pt
      ∈ ((scheduleSpiralPositions cosF sinF now entries).take j).map
        (fun r => r.pt) := by
    refine List.mem_map.mpr ⟨_, List.get_mem _ i hlen, ?_⟩
    rw [hget]
  have h := scheduleAux_far cosF sinF now entries 0 entries.length [] j hj
    hok _ (Or.inr hmem)
  rw [fullLayoutParams_minDist_eq] at h
  exact h

/-- Witness for C2 on a concrete two-entity pass whose second placement
succeeds without exhausting the budget. -/
theorem spiral_min_separation_witness :
    (76 : ℚ) ^ 2 ≤
      ((distSq
        ((scheduleSpiralPositions (fun a => 10 * a) (fun _ => 0) 1000000
          [⟨"a", none, 0, 0, 0⟩, ⟨"b", none, 0, 0, 0⟩]).get
          ⟨0, by simp [scheduleSpiralPositions, scheduleAux]⟩).pt
        ((scheduleSpiralPositions (fun a => 10 * a) (fun _ => 0) 1000000
          [⟨"a", none, 0, 0, 0⟩, ⟨"b", none, 0, 0, 0⟩]).get
          ⟨1, by simp [scheduleSpiralPositions, scheduleAux]⟩).pt : ℤ) : ℚ) :=
  spiral_min_separation (fun a => 10 * a) (fun _ => 0) 1000000
    [⟨"a", none, 0, 0, 0⟩, ⟨"b", none, 0, 0, 0⟩] 0 1 (by norm_num)
    (by simp [scheduleSpiralPositions, scheduleAux])
    (by
      have hc : (⌈(378 : ℚ)/5⌉ : ℤ) = 76 := by
        rw [Int.ceil_eq_iff]
        constructor <;> norm_num
      norm_num [scheduleSpiralPositions, scheduleAux, placeAt, nudge,
        spiralCandidate, jsRound, hasClash, distSq, fullLayoutParams,
        BLOB_RADIUS, REF_W, REF_H, hc, sup_eq_max])

/-- The cosine ease starts at 0. -/
theorem easeCos_zero : easeCos 0 = 0 := by
  simp [easeCos]

/-- The cosine ease ends at 1. -/
theorem easeCos_one : easeCos 1 = 1 := by
  simp [easeCos, Real.cos_pi]
  norm_num

/-- The cosine ease never drops below 0. -/
theorem easeCos_nonneg (t : ℝ) : 0 ≤ easeCos t := by
  have h := Real.cos_le_one (Real.pi * t)
  simp only [easeCos]
  linarith

/-- The cosine ease never exceeds 1. -/
theorem easeCos_le_one (t : ℝ) : easeCos t ≤ 1 := by
  have h := Real.neg_one_le_cos (Real.pi * t)
  simp only [easeCos]
  linarith

/-- The cosine ease is monotone on `[0, 1]`. -/
theorem easeCos_mono {t1 t2 : ℝ} (h0 : 0 ≤ t1) (h12 : t1 ≤ t2)
    (h1 : t2 ≤ 1) : easeCos t1 ≤ easeCos t2 := by
  have hpi := Real.pi_pos
  have hc := Real.cos_le_cos_of_nonneg_of_le_pi
    (mul_nonneg hpi.le h0)
    (by nlinarith : Real.pi * t2 ≤ Real.pi)
    (by nlinarith : Real.pi * t1 ≤ Real.pi * t2)
  simp only [easeCos]
  linarith

/-- The progress clamp lands in `[0, 1]`. -/
theorem clamp01_mem (x : ℝ) : 0 ≤ clamp01 x ∧ clamp01 x ≤ 1 :=
  ⟨le_max_left _ _, max_le (by norm_num) (min_le_left _ _)⟩

/-- The progress clamp is monotone. -/
theorem clamp01_mono {x y : ℝ} (h : x ≤ y) : clamp01 x ≤ clamp01 y :=
  max_le_max le_rfl (min_le_min le_rfl h)

/-- The progress clamp is 0 on nonpositive input. -/
theorem clamp01_of_nonpos {x : ℝ} (h : x ≤ 0) : clamp01 x = 0 := by
  have h2 : min 1 x ≤ 0 := le_trans (min_le_right 1 x) h
  simpa [clamp01] using max_eq_left h2

/-- The progress clamp is 1 from 1 on. -/
theorem clamp01_of_one_le {x : ℝ} (h : 1 ≤ x) : clamp01 x = 1 := by
  rw [clamp01, min_eq_left h]
  exact max_eq_right zero_le_one

/-- C3: the interpolated display-position coordinate equals the start
exactly while the clamped progress is 0 (elapsed at most the delay),
equals the target exactly once the clamped progress reaches 1 (elapsed at
least delay + duration), moves monotonically from start toward target as
time grows, and never leaves the segment between start and target — the
cosine ease `0.5 - 0.5*cos(π t)` is monotone on `[0, 1]` with range
`[0, 1]`. -/
theorem display_interpolation_spec (sC tC startTs delay duration : ℝ)
    (hdur : 0 < duration) :
    (∀ now : ℝ, now - startTs - delay ≤ 0 →
      dispCoord sC tC startTs delay duration now = sC) ∧
    (∀ now : ℝ, duration ≤ now - startTs - delay →
      dispCoord sC tC startTs delay duration now = tC) ∧
    (∀ n1 n2 : ℝ, n1 ≤ n2 →
      (sC ≤ tC → dispCoord sC tC startTs delay duration n1 ≤
        dispCoord sC tC startTs delay duration n2) ∧
      (tC ≤ sC → dispCoord sC tC startTs delay duration n2 ≤
        dispCoord sC tC startTs delay duration n1)) ∧
    (∀ now : ℝ, min sC tC ≤ dispCoord sC tC startTs delay duration now ∧
      dispCoord sC tC startTs delay duration now ≤ max sC tC) := by
  refine ⟨?_, ?_, ?_, ?_⟩
  · intro now h
    have ht : (now - startTs - delay) / duration ≤ 0 :=
      div_nonpos_of_nonpos_of_nonneg h hdur.le
    simp [dispCoord, clamp01_of_nonpos ht, easeCos_zero]
  · intro now h
    have ht : (1 : ℝ) ≤ (now - startTs - delay) / duration :=
      (one_le_div hdur).mpr h
    simp [dispCoord, clamp01_of_one_le ht, easeCos_one]
  · intro n1 n2 h12
    have hdiv : (n1 - startTs - delay) / duration ≤
        (n2 - startTs - delay) / duration := by
      apply div_le_div_of_nonneg_right ?_ hdur.le
      linarith
    have hcl := clamp01_mono hdiv
    have hm := clamp01_mem ((n1 - startTs - delay) / duration)
    have hm2 := clamp01_mem ((n2 - startTs - delay) / duration)
    have hee := easeCos_mono hm.1 hcl hm2.2
    constructor
    · intro hst
      simp only [dispCoord]
      nlinarith
    · intro hts
      simp only [dispCoord]
      nlinarith
  · intro now
    have hm := clamp01_mem ((now - startTs - delay) / duration)
    have he0 := easeCos_nonneg (clamp01 ((now - startTs - delay) / duration))
    have he1 := easeCos_le_one (clamp01 ((now - startTs - delay) / duration))
    rcases le_total sC tC with hst | hts
    · rw [min_eq_left hst, max_eq_right hst]
      simp only [dispCoord]
      constructor <;> nlinarith
    · rw [min_eq_right hts, max_eq_left hts]
      simp only [dispCoord]
      constructor <;> nlinarith

/-- Witness for C3: a concrete placement from 0 to 10 over 100 ms sits at
its start before the window and exactly at its target after it. -/
theorem display_interpolation_witness :
    dispCoord 0 10 0 0 100 0 = 0 ∧ dispCoord 0 10 0 0 100 200 = 10 := by
  have h := display_interpolation_spec 0 10 0 0 100 (by norm_num)
  exact ⟨h.1 0 (by norm_num), h.2.1 200 (by norm_num)⟩

end Echo
